import Mathlib

/-!
Shallow embedding of `mmpose/models/losses/regression_loss.py`.

The file defines two regression losses over batches of 2D keypoints:
`SmoothL1Loss` (wrapping `F.smooth_l1_loss`, default mean reduction,
beta = 1) and `WingLoss`.  Tensors of shape (N, K, 2) are modelled as
lists of N samples, each a list of K joints, each joint a pair of reals.
-/

namespace RegressionLoss

/-- A tensor of shape (N, K, 2): N samples, K joints, 2 coordinates. -/
abbrev Tensor3 := List (List (ℝ × ℝ))

/-- `output.size(1)`: the length of the first sample (the joint count K). -/
def size1 (t : Tensor3) : ℕ := (t.headD []).length

/-- Elementwise product of two tensors (`Tensor.mul`). -/
def mulT (a b : Tensor3) : Tensor3 :=
  List.zipWith
    (fun ra rb =>
      List.zipWith (fun pa pb => (pa.1 * pb.1, pa.2 * pb.2)) ra rb) a b

/-- The scalar entries of one sample, in order. -/
def rowFlat (row : List (ℝ × ℝ)) : List ℝ :=
  (row.map (fun p => [p.1, p.2])).flatten

/-- All scalar entries of a tensor, in order. -/
def flatten (t : Tensor3) : List ℝ := (t.map rowFlat).flatten

/-- Mean of a list of reals (0 for the empty list, as `0 / 0 = 0`). -/
noncomputable def mean (l : List ℝ) : ℝ := l.sum / l.length

/-- Pointwise smooth-L1 value of `F.smooth_l1_loss` with beta = 1:
`0.5 * x^2` for `|x| < 1`, else `|x| - 0.5`. -/
noncomputable def smoothL1Elem (x : ℝ) : ℝ :=
  if |x| < 1 then 0.5 * x ^ 2 else |x| - 0.5

/-- `F.smooth_l1_loss input target` with the default mean reduction. -/
noncomputable def smooth_l1_loss (input target : Tensor3) : ℝ :=
  mean (List.zipWith (fun x y => smoothL1Elem (x - y)) (flatten input) (flatten target))

/-- The `SmoothL1Loss` module: its constructor arguments. -/
structure SmoothL1Loss where
  use_target_weight : Bool := false
  loss_weight : ℝ := 1

/-- `SmoothL1Loss.forward(output, target, target_weight)`. -/
noncomputable def SmoothL1Loss.forward (self : SmoothL1Loss)
    (output target target_weight : Tensor3) : ℝ :=
  let num_joints := size1 output
  let loss :=
    if self.use_target_weight then
      smooth_l1_loss (mulT output target_weight) (mulT target target_weight)
    else
      smooth_l1_loss output target
  loss / num_joints * self.loss_weight

/-- The `WingLoss` module: its constructor arguments. -/
structure WingLoss where
  omega : ℝ := 10
  epsilon : ℝ := 2
  use_target_weight : Bool := false
  loss_weight : ℝ := 1

/-- The constant `c = omega * (1.0 - math.log(1.0 + omega / epsilon))`. -/
noncomputable def wingC (ω ε : ℝ) : ℝ := ω * (1 - Real.log (1 + ω / ε))

/-- The branch select of `torch.where(torch.lt(delta, omega), ...)` applied
to one entry `δ` of `delta`: `omega * log(1 + delta / epsilon)` when
`δ < omega`, else `delta - c`. -/
noncomputable def wingG (ω ε c δ : ℝ) : ℝ :=
  if δ < ω then ω * Real.log (1 + δ / ε) else δ - c

/-- `WingLoss.criterion(pred, target)`: `delta = (target - pred).abs()`,
apply the branch select elementwise, sum over dims [1, 2] (per sample),
then mean over dim 0 (the batch). -/
noncomputable def WingLoss.criterion (self : WingLoss) (pred target : Tensor3) : ℝ :=
  let c := wingC self.omega self.epsilon
  mean (List.zipWith
    (fun prow trow =>
      (List.zipWith
        (fun pp tp =>
          wingG self.omega self.epsilon c |tp.1 - pp.1| +
          wingG self.omega self.epsilon c |tp.2 - pp.2|) prow trow).sum)
    pred target)

/-- `WingLoss.forward(output, target, target_weight)`. -/
noncomputable def WingLoss.forward (self : WingLoss)
    (output target target_weight : Tensor3) : ℝ :=
  let num_joints := size1 output
  let loss :=
    if self.use_target_weight then
      WingLoss.criterion self (mulT output target_weight) (mulT target target_weight)
    else
      WingLoss.criterion self output target
  loss / num_joints * self.loss_weight

/-! ### Shape and content predicates used by the properties -/

/-- The tensor has shape (N, K, 2): N samples of K joints each. -/
def IsShape (N K : ℕ) (t : Tensor3) : Prop :=
  t.length = N ∧ ∀ row ∈ t, row.length = K

/-- Every entry of the tensor is zero. -/
def AllZero (t : Tensor3) : Prop :=
  ∀ row ∈ t, ∀ p ∈ row, p = ((0 : ℝ), (0 : ℝ))

/-- Two tensors have identical (possibly ragged) shapes. -/
def SameShape (a b : Tensor3) : Prop :=
  List.Forall₂ (fun ra rb => ra.length = rb.length) a b

/-! ### Spec-side formulas (transcribed from the spec, for refinement) -/

/-- Spec formula for the smooth-L1 distance of one element:
`0.5 * x ^ 2` for `|x| < 1`, else `|x| - 0.5`, with `x = prediction - target`. -/
noncomputable def specSmoothF (x : ℝ) : ℝ :=
  if |x| < 1 then 0.5 * x ^ 2 else |x| - 0.5

/-- Spec formula for SmoothL1Loss with `use_target_weight = false`:
the mean over all elements of `specSmoothF (prediction - target)`,
divided by the joint count K and scaled by the loss weight. -/
noncomputable def specSmoothL1 (K : ℕ) (lw : ℝ) (output target : Tensor3) : ℝ :=
  mean ((List.zipWith (fun p t => p - t) (flatten output) (flatten target)).map specSmoothF)
    / K * lw

/-- Spec formula for the wing value of one error magnitude `δ`:
`ω * ln (1 + δ / ε)` when `δ < ω`, else `δ - C` with
`C = ω * (1 - ln (1 + ω / ε))`. -/
noncomputable def specWingG (ω ε δ : ℝ) : ℝ :=
  if δ < ω then ω * Real.log (1 + δ / ε)
  else δ - ω * (1 - Real.log (1 + ω / ε))

/-- Spec formula for WingLoss with `use_target_weight = false`: sum the
per-sample values of `specWingG` at `δ = |prediction - target|` over the
joint and coordinate dimensions, average over the batch, divide by the
joint count K, and scale by the loss weight. -/
noncomputable def specWingLoss (K : ℕ) (ω ε lw : ℝ) (output target : Tensor3) : ℝ :=
  mean (List.zipWith
    (fun prow trow =>
      (List.zipWith
        (fun pp tp =>
          specWingG ω ε |pp.1 - tp.1| + specWingG ω ε |pp.2 - tp.2|) prow trow).sum)
    output target) / K * lw

/-! ### Helper lemmas -/

lemma size1_of_isShape {N K : ℕ} {t : Tensor3} (h : IsShape N K t) (hN : 0 < N) :
    size1 t = K := by
  obtain ⟨hlen, hrow⟩ := h
  cases t with
  | nil => simp at hlen; omega
  | cons r rs => exact hrow r (by simp)

lemma smoothL1Elem_zero : smoothL1Elem 0 = 0 := by
  simp [smoothL1Elem]

lemma smooth_l1_loss_self (t : Tensor3) : smooth_l1_loss t t = 0 := by
  unfold smooth_l1_loss
  rw [List.zipWith_same]
  have h : ((flatten t).map fun x => smoothL1Elem (x - x)).sum = 0 := by
    apply List.sum_eq_zero
    intro x hx
    simp only [List.mem_map] at hx
    obtain ⟨a, _, rfl⟩ := hx
    simp [smoothL1Elem]
  unfold mean
  rw [h, zero_div]

lemma wingG_at_zero {ω ε c : ℝ} (hω : 0 < ω) : wingG ω ε c 0 = 0 := by
  simp [wingG, hω]

lemma criterion_self (w : WingLoss) (hω : 0 < w.omega) (t : Tensor3) :
    w.criterion t t = 0 := by
  simp only [WingLoss.criterion]
  rw [List.zipWith_same]
  have h : (t.map fun row =>
      (List.zipWith (fun pp tp =>
        wingG w.omega w.epsilon (wingC w.omega w.epsilon) |tp.1 - pp.1| +
        wingG w.omega w.epsilon (wingC w.omega w.epsilon) |tp.2 - pp.2|) row row).sum).sum
      = 0 := by
    apply List.sum_eq_zero
    intro x hx
    simp only [List.mem_map] at hx
    obtain ⟨row, _, rfl⟩ := hx
    rw [List.zipWith_same]
    apply List.sum_eq_zero
    intro y hy
    simp only [List.mem_map] at hy
    obtain ⟨p, _, rfl⟩ := hy
    simp [wingG_at_zero hω]
  simp only [mean, h, zero_div]

lemma mem_zipWith_imp {α β γ : Type} {P : γ → Prop} {f : α → β → γ}
    (h : ∀ a b, P (f a b)) :
    ∀ (l1 : List α) (l2 : List β), ∀ x ∈ List.zipWith f l1 l2, P x := by
  intro l1
  induction l1 with
  | nil => intro l2 x hx; simp at hx
  | cons a l1 ih =>
      intro l2 x hx
      cases l2 with
      | nil => simp at hx
      | cons b l2 =>
          simp only [List.zipWith_cons_cons, List.mem_cons] at hx
          rcases hx with rfl | hx
          · exact h a b
          · exact ih l2 x hx

lemma smoothL1Elem_nonneg (x : ℝ) : 0 ≤ smoothL1Elem x := by
  unfold smoothL1Elem
  split
  · positivity
  · have h1 : 1 ≤ |x| := le_of_not_lt (by assumption)
    norm_num
    linarith

lemma mean_nonneg {l : List ℝ} (h : ∀ x ∈ l, 0 ≤ x) : 0 ≤ mean l :=
  div_nonneg (List.sum_nonneg h) (by positivity)

lemma smooth_l1_loss_nonneg (a b : Tensor3) : 0 ≤ smooth_l1_loss a b := by
  apply mean_nonneg
  exact mem_zipWith_imp (fun x y => smoothL1Elem_nonneg (x - y)) _ _

lemma wingG_nonneg {ω ε : ℝ} (hω : 0 < ω) (hε : 0 < ε) {δ : ℝ} (hδ : 0 ≤ δ) :
    0 ≤ wingG ω ε (wingC ω ε) δ := by
  unfold wingG wingC
  have hlog : 0 ≤ Real.log (1 + ω / ε) :=
    Real.log_nonneg (by nlinarith [div_nonneg hω.le hε.le])
  split
  · exact mul_nonneg hω.le
      (Real.log_nonneg (by nlinarith [div_nonneg hδ hε.le]))
  · have hωδ : ω ≤ δ := le_of_not_lt (by assumption)
    nlinarith

lemma criterion_nonneg (w : WingLoss) (hω : 0 < w.omega) (hε : 0 < w.epsilon)
    (a b : Tensor3) : 0 ≤ w.criterion a b := by
  unfold WingLoss.criterion
  apply mean_nonneg
  apply mem_zipWith_imp
  intro prow trow
  apply List.sum_nonneg
  apply mem_zipWith_imp
  intro pp tp
  exact add_nonneg (wingG_nonneg hω hε (abs_nonneg _)) (wingG_nonneg hω hε (abs_nonneg _))

lemma rowMul_zero (ra rb : List (ℝ × ℝ)) (hlen : ra.length = rb.length)
    (hz : ∀ p ∈ rb, p = ((0 : ℝ), (0 : ℝ))) :
    List.zipWith (fun pa pb => (pa.1 * pb.1, pa.2 * pb.2)) ra rb
      = rb.map (fun _ => ((0 : ℝ), (0 : ℝ))) := by
  induction ra generalizing rb with
  | nil => cases rb with
      | nil => rfl
      | cons b bs => simp at hlen
  | cons a as ih =>
      cases rb with
      | nil => simp at hlen
      | cons b bs =>
          simp only [List.zipWith_cons_cons, List.map_cons]
          have hb : b = ((0 : ℝ), (0 : ℝ)) := hz b (by simp)
          congr 1
          · rw [hb]; simp
          · exact ih bs (by simpa using hlen) (fun p hp => hz p (by simp [hp]))

lemma mulT_allZero {a b : Tensor3} (hz : AllZero b) (hs : SameShape a b) :
    mulT a b = b.map (fun row => row.map (fun _ => ((0 : ℝ), (0 : ℝ)))) := by
  unfold mulT
  induction hs with
  | nil => rfl
  | cons hlen hs ih =>
      rename_i ra rb la lb
      simp only [List.zipWith_cons_cons, List.map_cons]
      congr 1
      · exact rowMul_zero ra rb hlen (hz rb (by simp))
      · exact ih (fun row hrow => hz row (by simp [hrow]))

lemma size1_replicate {n : ℕ} (hn : 1 ≤ n) (row : List (ℝ × ℝ)) :
    size1 (List.replicate n row) = row.length := by
  cases n with
  | zero => omega
  | succ m => simp [size1, List.replicate_succ]

lemma zipWith_flatten_replicate (f : ℝ → ℝ → ℝ) (n : ℕ) (l1 l2 : List ℝ)
    (h : l1.length = l2.length) :
    List.zipWith f (List.replicate n l1).flatten (List.replicate n l2).flatten
      = (List.replicate n (List.zipWith f l1 l2)).flatten := by
  induction n with
  | zero => rfl
  | succ m ih =>
      simp only [List.replicate_succ, List.flatten_cons]
      rw [List.zipWith_append _ _ _ _ _ h, ih]

lemma mean_flatten_replicate {n : ℕ} (hn : 1 ≤ n) (l : List ℝ) :
    mean (List.replicate n l).flatten = mean l := by
  unfold mean
  rw [List.sum_flatten, List.length_flatten]
  simp only [List.map_replicate, List.sum_replicate, nsmul_eq_mul, Nat.cast_mul,
    Nat.cast_id]
  have hne : (n : ℝ) ≠ 0 := Nat.cast_ne_zero.mpr (by omega)
  rw [mul_div_mul_left _ _ hne]

lemma mean_replicate {n : ℕ} (hn : 1 ≤ n) (v : ℝ) :
    mean (List.replicate n v) = v := by
  unfold mean
  rw [List.sum_replicate, List.length_replicate, nsmul_eq_mul]
  exact mul_div_cancel_left₀ v (Nat.cast_ne_zero.mpr (by omega))

lemma length_rowFlat (row : List (ℝ × ℝ)) : (rowFlat row).length = 2 * row.length := by
  unfold rowFlat
  induction row with
  | nil => rfl
  | cons p ps ih => simp only [List.map_cons, List.flatten_cons, List.length_append, ih,
      List.length_cons, List.length_nil]; omega

lemma flatten_replicate (n : ℕ) (row : List (ℝ × ℝ)) :
    flatten (List.replicate n row) = (List.replicate n (rowFlat row)).flatten := by
  unfold flatten
  rw [List.map_replicate]

lemma flatten_singleton (row : List (ℝ × ℝ)) : flatten [row] = rowFlat row := by
  simp [flatten]

lemma smooth_l1_loss_replicate {n : ℕ} (hn : 1 ≤ n) (a b : List (ℝ × ℝ))
    (h : a.length = b.length) :
    smooth_l1_loss (List.replicate n a) (List.replicate n b)
      = smooth_l1_loss [a] [b] := by
  unfold smooth_l1_loss
  rw [flatten_replicate, flatten_replicate, flatten_singleton, flatten_singleton,
    zipWith_flatten_replicate _ _ _ _ (by rw [length_rowFlat, length_rowFlat, h]),
    mean_flatten_replicate hn]

lemma criterion_replicate (w : WingLoss) {n : ℕ} (hn : 1 ≤ n)
    (a b : List (ℝ × ℝ)) :
    w.criterion (List.replicate n a) (List.replicate n b)
      = w.criterion [a] [b] := by
  simp only [WingLoss.criterion]
  rw [List.zipWith_replicate', mean_replicate hn]
  simp [mean]

lemma mulT_replicate (n : ℕ) (a b : List (ℝ × ℝ)) :
    mulT (List.replicate n a) (List.replicate n b)
      = List.replicate n (List.zipWith (fun pa pb => (pa.1 * pb.1, pa.2 * pb.2)) a b) := by
  unfold mulT
  rw [List.zipWith_replicate']

lemma mulT_singleton (a b : List (ℝ × ℝ)) :
    mulT [a] [b] = [List.zipWith (fun pa pb => (pa.1 * pb.1, pa.2 * pb.2)) a b] := by
  simp [mulT]

/-! ### Claim theorems -/

/-- C1 (counterexample): in the scenario N = 1, K = 1, output = [[(0,0)]],
target = [[(1,0)]], weight = [[(1,1)]], `use_target_weight` = false,
`loss_weight` = 1, `SmoothL1Loss.forward` does not return 0.5: the mean is
taken over both coordinates, and the second coordinate contributes 0. -/
theorem smoothL1_scenario_ne_half :
    SmoothL1Loss.forward ⟨false, 1⟩ [[(0, 0)]] [[(1, 0)]] [[(1, 1)]] ≠ 0.5 := by
  simp [SmoothL1Loss.forward, smooth_l1_loss, flatten, rowFlat, mean,
    smoothL1Elem, size1]
  norm_num

/-- C1 (amended): in the same scenario, `SmoothL1Loss.forward` returns 0.25:
the smooth-L1 values of the two elementwise errors are |−1| − 0.5 = 0.5 and 0,
their mean is 0.25, and dividing by K = 1 and scaling by 1 leaves 0.25. -/
theorem smoothL1_scenario_value :
    SmoothL1Loss.forward ⟨false, 1⟩ [[(0, 0)]] [[(1, 0)]] [[(1, 1)]] = 0.25 := by
  simp [SmoothL1Loss.forward, smooth_l1_loss, flatten, rowFlat, mean,
    smoothL1Elem, size1]
  norm_num

/-- C4: for ω > 0 and ε > 0 the two branches of the wing function agree at
δ = ω: the linear branch evaluates to ω − C = ω·ln(1 + ω/ε), the value of
the logarithmic branch, so the piecewise function is continuous there. -/
theorem wing_branches_agree_at_omega (ω ε : ℝ) (hω : 0 < ω) (hε : 0 < ε) :
    wingG ω ε (wingC ω ε) ω = ω * Real.log (1 + ω / ε) := by
  unfold wingG wingC
  rw [if_neg (lt_irrefl ω)]
  ring

/-- Witness for C4 at ω = 10, ε = 2. -/
theorem wing_branches_agree_at_omega_witness :
    0 < (10 : ℝ) ∧ 0 < (2 : ℝ) ∧
      wingG 10 2 (wingC 10 2) 10 = 10 * Real.log (1 + 10 / 2) :=
  ⟨by norm_num, by norm_num,
    wing_branches_agree_at_omega 10 2 (by norm_num) (by norm_num)⟩

/-- C5: when prediction equals target elementwise, both
`SmoothL1Loss.forward` and `WingLoss.forward` return 0 (for ω > 0, ε > 0),
on either weighting branch. -/
theorem losses_zero_on_equal_inputs (s : SmoothL1Loss) (w : WingLoss)
    (t tw : Tensor3) (hω : 0 < w.omega) (hε : 0 < w.epsilon) :
    s.forward t t tw = 0 ∧ w.forward t t tw = 0 := by
  constructor
  · simp only [SmoothL1Loss.forward]
    split <;> rw [smooth_l1_loss_self, zero_div, zero_mul]
  · simp only [WingLoss.forward]
    split <;> rw [criterion_self w hω, zero_div, zero_mul]

/-- Witness for C5 with the default configurations on a concrete tensor. -/
theorem losses_zero_on_equal_inputs_witness :
    SmoothL1Loss.forward ⟨false, 1⟩ [[(1, 2)]] [[(1, 2)]] [[(1, 1)]] = 0 ∧
      WingLoss.forward ⟨10, 2, false, 1⟩ [[(1, 2)]] [[(1, 2)]] [[(1, 1)]] = 0 :=
  losses_zero_on_equal_inputs ⟨false, 1⟩ ⟨10, 2, false, 1⟩ [[(1, 2)]] [[(1, 1)]]
    (by norm_num) (by norm_num)

/-- C7: both forward results are linear in `loss_weight`: constructing the
loss with `loss_weight = 2 * w` returns exactly twice the result obtained
with `loss_weight = w`, for every input. -/
theorem losses_linear_in_loss_weight (s : SmoothL1Loss) (w : WingLoss)
    (output target tw : Tensor3) :
    SmoothL1Loss.forward ⟨s.use_target_weight, 2 * s.loss_weight⟩ output target tw
        = 2 * s.forward output target tw ∧
      WingLoss.forward ⟨w.omega, w.epsilon, w.use_target_weight, 2 * w.loss_weight⟩
          output target tw
        = 2 * w.forward output target tw := by
  obtain ⟨u, lw⟩ := s
  obtain ⟨ω, ε, uw, lww⟩ := w
  constructor
  · simp only [SmoothL1Loss.forward]
    ring
  · simp only [WingLoss.forward, WingLoss.criterion]
    ring

/-- C9: when `use_target_weight` is false, the forward results of both
losses do not depend on the `target_weight` argument. -/
theorem losses_ignore_weight_when_unused (s : SmoothL1Loss) (w : WingLoss)
    (output target tw1 tw2 : Tensor3)
    (hs : s.use_target_weight = false) (hw : w.use_target_weight = false) :
    s.forward output target tw1 = s.forward output target tw2 ∧
      w.forward output target tw1 = w.forward output target tw2 := by
  constructor
  · simp [SmoothL1Loss.forward, hs]
  · simp [WingLoss.forward, hw]

/-- Witness for C9 on two different concrete weight tensors. -/
theorem losses_ignore_weight_when_unused_witness :
    SmoothL1Loss.forward ⟨false, 1⟩ [[(1, 2)]] [[(3, 4)]] [[(1, 1)]]
        = SmoothL1Loss.forward ⟨false, 1⟩ [[(1, 2)]] [[(3, 4)]] [[(5, 7)]] ∧
      WingLoss.forward ⟨10, 2, false, 1⟩ [[(1, 2)]] [[(3, 4)]] [[(1, 1)]]
        = WingLoss.forward ⟨10, 2, false, 1⟩ [[(1, 2)]] [[(3, 4)]] [[(5, 7)]] :=
  losses_ignore_weight_when_unused ⟨false, 1⟩ ⟨10, 2, false, 1⟩
    [[(1, 2)]] [[(3, 4)]] [[(1, 1)]] [[(5, 7)]] rfl rfl

/-- C6: when `use_target_weight` is true and the weight tensor is all
zeros (and has the same shape as output and target), both forward results
are 0: prediction and target are each multiplied by the weights, so both
become the zero tensor and the distance vanishes. -/
theorem losses_zero_on_zero_weight (s : SmoothL1Loss) (w : WingLoss)
    (output target tw : Tensor3)
    (hs : s.use_target_weight = true) (hw : w.use_target_weight = true)
    (hz : AllZero tw) (h1 : SameShape output tw) (h2 : SameShape target tw)
    (hω : 0 < w.omega) :
    s.forward output target tw = 0 ∧ w.forward output target tw = 0 := by
  have e1 := mulT_allZero hz h1
  have e2 := mulT_allZero hz h2
  constructor
  · simp only [SmoothL1Loss.forward, hs, if_true]
    rw [e1, e2, smooth_l1_loss_self, zero_div, zero_mul]
  · simp only [WingLoss.forward, hw, if_true]
    rw [e1, e2, criterion_self w hω, zero_div, zero_mul]

/-- Witness for C6 on a concrete all-zero weight tensor. -/
theorem losses_zero_on_zero_weight_witness :
    SmoothL1Loss.forward ⟨true, 1⟩ [[(3, 4)]] [[(5, 6)]] [[(0, 0)]] = 0 ∧
      WingLoss.forward ⟨10, 2, true, 1⟩ [[(3, 4)]] [[(5, 6)]] [[(0, 0)]] = 0 :=
  losses_zero_on_zero_weight ⟨true, 1⟩ ⟨10, 2, true, 1⟩
    [[(3, 4)]] [[(5, 6)]] [[(0, 0)]] rfl rfl
    (by simp [AllZero]) (by simp [SameShape]) (by simp [SameShape]) (by norm_num)

/-- C10: with `loss_weight` ≥ 0 (and ω > 0, ε > 0 for WingLoss), both
forward results are nonnegative: every elementwise term of either loss is
nonnegative and the reductions preserve nonnegativity. -/
theorem losses_nonneg (s : SmoothL1Loss) (w : WingLoss)
    (output target tw : Tensor3)
    (hsl : 0 ≤ s.loss_weight) (hwl : 0 ≤ w.loss_weight)
    (hω : 0 < w.omega) (hε : 0 < w.epsilon) :
    0 ≤ s.forward output target tw ∧ 0 ≤ w.forward output target tw := by
  constructor
  · simp only [SmoothL1Loss.forward]
    apply mul_nonneg _ hsl
    apply div_nonneg _ (Nat.cast_nonneg _)
    split
    · exact smooth_l1_loss_nonneg _ _
    · exact smooth_l1_loss_nonneg _ _
  · simp only [WingLoss.forward]
    apply mul_nonneg _ hwl
    apply div_nonneg _ (Nat.cast_nonneg _)
    split
    · exact criterion_nonneg w hω hε _ _
    · exact criterion_nonneg w hω hε _ _

/-- Witness for C10 on a concrete input with the default configurations. -/
theorem losses_nonneg_witness :
    0 ≤ SmoothL1Loss.forward ⟨false, 1⟩ [[(0, 3)]] [[(1, 0)]] [[(1, 1)]] ∧
      0 ≤ WingLoss.forward ⟨10, 2, false, 1⟩ [[(0, 3)]] [[(1, 0)]] [[(1, 1)]] :=
  losses_nonneg ⟨false, 1⟩ ⟨10, 2, false, 1⟩ [[(0, 3)]] [[(1, 0)]] [[(1, 1)]]
    (by norm_num) (by norm_num) (by norm_num) (by norm_num)

/-- C2: for tensors of shape (N, K, 2) with N ≥ 1 and
`use_target_weight` = false, `SmoothL1Loss.forward` returns the mean over
all elements of the spec's smooth-L1 value of prediction − target, divided
by K and scaled by `loss_weight`. -/
theorem smoothL1_forward_matches_spec (s : SmoothL1Loss) (N K : ℕ)
    (output target tw : Tensor3) (hN : 0 < N)
    (ho : IsShape N K output) (ht : IsShape N K target)
    (hu : s.use_target_weight = false) :
    s.forward output target tw = specSmoothL1 K s.loss_weight output target := by
  simp only [SmoothL1Loss.forward, hu, Bool.false_eq_true, if_false]
  rw [size1_of_isShape ho hN]
  unfold specSmoothL1 smooth_l1_loss
  rw [List.map_zipWith]
  rfl

/-- Witness for C2 at the concrete scenario of the spec. -/
theorem smoothL1_forward_matches_spec_witness :
    SmoothL1Loss.forward ⟨false, 1⟩ [[(0, 0)]] [[(1, 0)]] [[(1, 1)]]
      = specSmoothL1 1 1 [[(0, 0)]] [[(1, 0)]] :=
  smoothL1_forward_matches_spec ⟨false, 1⟩ 1 1 [[(0, 0)]] [[(1, 0)]] [[(1, 1)]]
    (by norm_num) (by simp [IsShape]) (by simp [IsShape]) rfl

/-- C3: for tensors of shape (N, K, 2) with N ≥ 1 and
`use_target_weight` = false, `WingLoss.forward` returns the batch mean of
the per-sample sum of the spec's wing value at δ = |prediction − target|,
divided by K and scaled by `loss_weight`. -/
theorem wingLoss_forward_matches_spec (w : WingLoss) (N K : ℕ)
    (output target tw : Tensor3) (hN : 0 < N)
    (ho : IsShape N K output) (ht : IsShape N K target)
    (hu : w.use_target_weight = false) :
    w.forward output target tw
      = specWingLoss K w.omega w.epsilon w.loss_weight output target := by
  simp only [WingLoss.forward, hu, Bool.false_eq_true, if_false]
  rw [size1_of_isShape ho hN]
  simp only [WingLoss.criterion]
  unfold specWingLoss
  have hfun : (fun (pp tp : ℝ × ℝ) =>
      wingG w.omega w.epsilon (wingC w.omega w.epsilon) |tp.1 - pp.1| +
        wingG w.omega w.epsilon (wingC w.omega w.epsilon) |tp.2 - pp.2|)
      = (fun pp tp =>
        specWingG w.omega w.epsilon |pp.1 - tp.1|
          + specWingG w.omega w.epsilon |pp.2 - tp.2|) := by
    funext pp tp
    rw [abs_sub_comm tp.1 pp.1, abs_sub_comm tp.2 pp.2]
    rfl
  rw [hfun]

/-- Witness for C3 at the concrete scenario of the spec: the result is
10·ln(3/2) ≈ 4.0546. -/
theorem wingLoss_forward_matches_spec_witness :
    WingLoss.forward ⟨10, 2, false, 1⟩ [[(0, 0)]] [[(1, 0)]] [[(1, 1)]]
      = 10 * Real.log (3 / 2) := by
  rw [wingLoss_forward_matches_spec ⟨10, 2, false, 1⟩ 1 1
    [[(0, 0)]] [[(1, 0)]] [[(1, 1)]]
    (by norm_num) (by simp [IsShape]) (by simp [IsShape]) rfl]
  simp [specWingLoss, specWingG, mean]
  norm_num

/-- C8: replicating one sample n ≥ 1 times along the batch dimension
leaves both forward results unchanged, because the batch reduction is a
mean for SmoothL1Loss and a mean of per-sample sums for WingLoss. -/
theorem losses_batch_replication_invariant (s : SmoothL1Loss) (w : WingLoss)
    (orow trow twrow : List (ℝ × ℝ)) (n : ℕ) (hn : 1 ≤ n)
    (hot : orow.length = trow.length) (how : orow.length = twrow.length) :
    s.forward (List.replicate n orow) (List.replicate n trow) (List.replicate n twrow)
        = s.forward [orow] [trow] [twrow] ∧
      w.forward (List.replicate n orow) (List.replicate n trow) (List.replicate n twrow)
        = w.forward [orow] [trow] [twrow] := by
  constructor
  · simp only [SmoothL1Loss.forward]
    rw [size1_replicate hn]
    simp only [size1, List.headD_cons]
    split
    · rw [mulT_replicate, mulT_replicate, mulT_singleton, mulT_singleton,
        smooth_l1_loss_replicate hn _ _ (by simp [List.length_zipWith, hot])]
    · rw [smooth_l1_loss_replicate hn _ _ hot]
  · simp only [WingLoss.forward]
    rw [size1_replicate hn]
    simp only [size1, List.headD_cons]
    split
    · rw [mulT_replicate, mulT_replicate, mulT_singleton, mulT_singleton,
        criterion_replicate w hn]
    · rw [criterion_replicate w hn]

/-- Witness for C8: replicating the spec's scenario sample 3 times. -/
theorem losses_batch_replication_invariant_witness :
    SmoothL1Loss.forward ⟨false, 1⟩ (List.replicate 3 [((0 : ℝ), (0 : ℝ))])
          (List.replicate 3 [((1 : ℝ), (0 : ℝ))]) (List.replicate 3 [((1 : ℝ), (1 : ℝ))])
        = SmoothL1Loss.forward ⟨false, 1⟩ [[(0, 0)]] [[(1, 0)]] [[(1, 1)]] ∧
      WingLoss.forward ⟨10, 2, false, 1⟩ (List.replicate 3 [((0 : ℝ), (0 : ℝ))])
          (List.replicate 3 [((1 : ℝ), (0 : ℝ))]) (List.replicate 3 [((1 : ℝ), (1 : ℝ))])
        = WingLoss.forward ⟨10, 2, false, 1⟩ [[(0, 0)]] [[(1, 0)]] [[(1, 1)]] :=
  losses_batch_replication_invariant ⟨false, 1⟩ ⟨10, 2, false, 1⟩
    [(0, 0)] [(1, 0)] [(1, 1)] 3 (by norm_num) rfl rfl

end RegressionLoss
